import Mathlib

/-!
# The KiCad change-staging ledger (`COMMIT`), shallowly embedded

Embedding of `src/common/commit.cpp`: the transaction ledger that records
proposed additions, removals and modifications of document items before they
are committed to undo history.  Items, screens and snapshot clones are
represented by opaque natural-number identities.  Clone production
(`makeImage`) and logical-parent resolution (`parentObject`) are external
item capabilities, modelled by an environment of functions.  `wxASSERT` /
`assert` continue execution after signalling, so every operation is total
and additionally reports the list of assertion violations it signalled and
the list of snapshot clones it released (`delete`d).
-/

namespace KiCommit

/-- Modelled from the spec: the `CHANGE_TYPE` bit-field constants live in the
header `commit.h`, which is not among the provided sources.  The spec states
kind (`Add`, `Remove`, `Modify`) and the flag bundle (`Done`) are independent
bit-fields, with `CHT_TYPE` / `CHT_FLAGS` the masks. -/
def CHT_ADD : Nat := 1

/-- `CHT_REMOVE` bit of `CHANGE_TYPE` (see `CHT_ADD`). -/
def CHT_REMOVE : Nat := 2

/-- `CHT_MODIFY` bit of `CHANGE_TYPE` (see `CHT_ADD`). -/
def CHT_MODIFY : Nat := 4

/-- Mask selecting the kind bits of a `CHANGE_TYPE` value. -/
def CHT_TYPE : Nat := CHT_ADD + CHT_REMOVE + CHT_MODIFY

/-- The `CHT_DONE` flag bit (mutually exclusive with `CHT_MODIFY` by
contract). -/
def CHT_DONE : Nat := 8

/-- Mask selecting the flag bits of a `CHANGE_TYPE` value. -/
def CHT_FLAGS : Nat := CHT_DONE

/-- One entry of the ledger (`COMMIT::COMMIT_LINE`): the affected item's
identity, its `CHANGE_TYPE` bits, the optionally owned snapshot clone, and
the screen context (`none` models a null `BASE_SCREEN*`). -/
structure COMMIT_LINE where
  m_item : Nat
  m_type : Nat
  m_copy : Option Nat
  m_screen : Option Nat
deriving DecidableEq, Repr

/-- The ledger state: the ordered record sequence `m_changes`, the touched
set `m_changedItems` (a `std::set`, modelled as a list with membership
semantics), and `nextClone`, a modelling artifact numbering `makeImage`
calls so that freshly produced clones carry fresh identities. -/
structure Commit where
  m_changes : List COMMIT_LINE
  m_changedItems : List Nat
  nextClone : Nat
deriving DecidableEq, Repr

/-- The empty ledger produced by `COMMIT::COMMIT()`. -/
def Commit.empty : Commit := ⟨[], [], 0⟩

/-- Assertion violations the code can signal (`wxASSERT`, `wxFAIL`,
`assert`); wx assertions report and continue, so operations stay total and
collect these as events. -/
inductive Violation where
  | modifyDoneConflict
  | addAlreadyTouched
  | cloneFailed
  | badChangeType
  | copyKindMismatch
  | linkNotChanged
  | unconvertibleStatus
deriving DecidableEq, Repr

/-- Modelled from the spec: the external item capability (`parentObject`,
`makeImage` are pure virtuals of `COMMIT`, implemented outside the provided
sources).  `parent` resolves an item's logical parent identity; `cloneOk k i`
says whether the `k`-th clone production of the transaction, applied to item
`i`, succeeds (failure models a null return from `makeImage`). -/
structure Env where
  parent : Nat → Nat
  cloneOk : Nat → Nat → Bool

/-- `COMMIT::makeImage`, instrumented: on the `k`-th call the produced clone
is the fresh identity `k`; a failed production returns `none`.  The counter
advances either way. -/
def makeImage (env : Env) (c : Commit) (aItem : Nat) : Option Nat × Commit :=
  if env.cloneOk c.nextClone aItem then
    (some c.nextClone, { c with nextClone := c.nextClone + 1 })
  else
    (none, { c with nextClone := c.nextClone + 1 })

/-- `COMMIT::makeEntry`: asserts the snapshot-presence rule (a copy iff the
kind is `CHT_MODIFY`); if the item is already touched, erases every record
whose (item, screen) pair matches exactly (`alg::delete_if` — note it frees
no snapshot); then appends the new record and inserts the item into the
touched set.  Returns the new state and the violations signalled. -/
def makeEntry (c : Commit) (aItem : Nat) (aType : Nat) (aCopy : Option Nat)
    (aScreen : Option Nat) : Commit × List Violation :=
  let viols := if aCopy.isSome = ((aType &&& CHT_TYPE) == CHT_MODIFY) then []
               else [Violation.copyKindMismatch]
  let changes :=
    if aItem ∈ c.m_changedItems then
      c.m_changes.filter fun e => !(e.m_item == aItem && e.m_screen == aScreen)
    else
      c.m_changes
  (⟨changes ++ [⟨aItem, aType, aCopy, aScreen⟩],
    c.m_changedItems.insert aItem, c.nextClone⟩, viols)

/-- `COMMIT::createModified`: resolves the logical parent of the argument;
if the parent is already touched the supplied clone is deleted at once and
the call is a no-op; otherwise delegates to `makeEntry` with kind
`CHT_MODIFY` plus the extra flags, owning the clone.  Middle component:
clones released during the call. -/
def createModified (env : Env) (c : Commit) (aItem : Nat) (aCopy : Nat)
    (aExtraFlags : Nat) (aScreen : Option Nat) :
    Commit × List Nat × List Violation :=
  let parent := env.parent aItem
  if parent ∈ c.m_changedItems then
    (c, [aCopy], [])
  else
    let r := makeEntry c parent (CHT_MODIFY ||| aExtraFlags) (some aCopy) aScreen
    (r.1, [], r.2)

/-- Modelled from the spec: `COMMIT::Modified(item, copy, screen)` is declared
in the absent header; per the spec it adopts an externally supplied snapshot
directly via the create-modified path, with no extra flags. -/
def Modified (env : Env) (c : Commit) (aItem : Nat) (aCopy : Nat)
    (aScreen : Option Nat) : Commit × List Nat × List Violation :=
  createModified env c aItem aCopy 0 aScreen

/-- `COMMIT::Stage(EDA_ITEM*, CHANGE_TYPE, BASE_SCREEN*)`: asserts that
`CHT_MODIFY` and `CHT_DONE` are not combined, then dispatches on the kind
bits: `CHT_ADD` (asserting the item untouched), `CHT_REMOVE`, `CHT_MODIFY`
(resolve parent, produce a clone — asserting success — and delegate to
`createModified`), or `wxFAIL` on any other kind pattern. -/
def Stage (env : Env) (c : Commit) (aItem : Nat) (aChangeType : Nat)
    (aScreen : Option Nat) : Commit × List Nat × List Violation :=
  let pre := if (aChangeType &&& (CHT_MODIFY ||| CHT_DONE)) == (CHT_MODIFY ||| CHT_DONE)
             then [Violation.modifyDoneConflict] else []
  let flag := aChangeType &&& CHT_FLAGS
  if (aChangeType &&& CHT_TYPE) == CHT_ADD then
    let aViols := if aItem ∈ c.m_changedItems then [Violation.addAlreadyTouched] else []
    let r := makeEntry c aItem (CHT_ADD ||| flag) none aScreen
    (r.1, [], pre ++ aViols ++ r.2)
  else if (aChangeType &&& CHT_TYPE) == CHT_REMOVE then
    let r := makeEntry c aItem (CHT_REMOVE ||| flag) none aScreen
    (r.1, [], pre ++ r.2)
  else if (aChangeType &&& CHT_TYPE) == CHT_MODIFY then
    let parent := env.parent aItem
    match makeImage env c parent with
    | (some clone, c1) =>
        let r := createModified env c1 parent clone flag aScreen
        (r.1, r.2.1, pre ++ r.2.2)
    | (none, c1) =>
        (c1, [], pre ++ [Violation.cloneFailed])
  else
    (c, [], pre ++ [Violation.badChangeType])

/-- `COMMIT::Stage(std::vector<EDA_ITEM*>&, ...)`: stages each item of the
container in sequence, accumulating released clones and violations in loop
order. -/
def StageList (env : Env) (c : Commit) (items : List Nat) (aChangeType : Nat)
    (aScreen : Option Nat) : Commit × List Nat × List Violation :=
  match items with
  | [] => (c, [], [])
  | i :: rest =>
      let r := Stage env c i aChangeType aScreen
      let rr := StageList env r.1 rest aChangeType aScreen
      (rr.1, r.2.1 ++ rr.2.1, r.2.2 ++ rr.2.2)

/-- The external undo/redo status of a picked item.  `OTHER` stands for every
enumerator besides the four the ledger understands. -/
inductive UNDO_REDO where
  | UNSPECIFIED
  | NEWITEM
  | DELETED
  | CHANGED
  | OTHER
deriving DecidableEq, Repr

/-- One triple of a `PICKED_ITEMS_LIST`: the item, its recorded status, and
the optional pre-made clone (`GetPickedItemLink`). -/
structure PICKED where
  item : Nat
  status : UNDO_REDO
  link : Option Nat
deriving DecidableEq, Repr

/-- `COMMIT::convert`: maps an external status to `CHANGE_TYPE` bits —
`NEWITEM → CHT_ADD`, `DELETED → CHT_REMOVE`, `CHANGED → CHT_MODIFY`; any
other value asserts (and, the assert continuing, falls through to
`CHT_MODIFY` as the `NDEBUG` build does). -/
def convert (aType : UNDO_REDO) : Nat × List Violation :=
  match aType with
  | .NEWITEM => (CHT_ADD, [])
  | .DELETED => (CHT_REMOVE, [])
  | .CHANGED => (CHT_MODIFY, [])
  | _ => (CHT_MODIFY, [Violation.unconvertibleStatus])

/-- One iteration of the `PICKED_ITEMS_LIST` overload of `COMMIT::Stage`:
a status of `UNSPECIFIED` is replaced by the default kind; a triple carrying
a pre-made clone asserts the status is `CHANGED` and adopts the clone via
`Modified`; otherwise the converted kind goes through the ordinary
single-item `Stage`. -/
def stagePickedStep (env : Env) (c : Commit) (p : PICKED) (aModFlag : UNDO_REDO)
    (aScreen : Option Nat) : Commit × List Nat × List Violation :=
  let changeType := if p.status == UNDO_REDO.UNSPECIFIED then aModFlag else p.status
  match p.link with
  | some copy =>
      let lv := if changeType == UNDO_REDO.CHANGED then []
                else [Violation.linkNotChanged]
      let r := Modified env c p.item copy aScreen
      (r.1, r.2.1, lv ++ r.2.2)
  | none =>
      let cv := convert changeType
      let r := Stage env c p.item cv.1 aScreen
      (r.1, r.2.1, cv.2 ++ r.2.2)

/-- `COMMIT::Stage(const PICKED_ITEMS_LIST&, UNDO_REDO, BASE_SCREEN*)`:
processes the picked triples in list order, accumulating released clones and
violations in loop order. -/
def StagePicked (env : Env) (c : Commit) (items : List PICKED)
    (aModFlag : UNDO_REDO) (aScreen : Option Nat) :
    Commit × List Nat × List Violation :=
  match items with
  | [] => (c, [], [])
  | p :: rest =>
      let r := stagePickedStep env c p aModFlag aScreen
      let rr := StagePicked env r.1 rest aModFlag aScreen
      (rr.1, r.2.1 ++ rr.2.1, r.2.2 ++ rr.2.2)

/-- `COMMIT::findEntry`: linear scan of the records for the first exact
(item, screen) match. -/
def findEntry (c : Commit) (aItem : Nat) (aScreen : Option Nat) :
    Option COMMIT_LINE :=
  c.m_changes.find? fun e => e.m_item == aItem && e.m_screen == aScreen

/-- `COMMIT::GetStatus`: the `m_type` of the record found for
(logical-parent-of-item, screen), or `0` when none exists. -/
def GetStatus (env : Env) (c : Commit) (aItem : Nat) (aScreen : Option Nat) :
    Nat :=
  match findEntry c (env.parent aItem) aScreen with
  | some entry => entry.m_type
  | none => 0

/-- `COMMIT::~COMMIT`: the clones released at destruction — one `delete` per
record whose `m_copy` is non-null, in record order. -/
def destructorReleased (c : Commit) : List Nat :=
  c.m_changes.filterMap fun e => e.m_copy

/-- The ledger invariant: every record's item identity is a member of the
touched set `m_changedItems`. -/
def Inv (c : Commit) : Prop :=
  ∀ e ∈ c.m_changes, e.m_item ∈ c.m_changedItems

/-- One public staging call, for stating properties of every state reachable
through the ledger's mutating interface. -/
inductive Op where
  | one (item : Nat) (ctype : Nat) (screen : Option Nat)
  | list (items : List Nat) (ctype : Nat) (screen : Option Nat)
  | picked (items : List PICKED) (modFlag : UNDO_REDO) (screen : Option Nat)
deriving Repr

/-- The state transition of one public staging call. -/
def applyOp (env : Env) (c : Commit) : Op → Commit
  | .one i t s => (Stage env c i t s).1
  | .list l t s => (StageList env c l t s).1
  | .picked l d s => (StagePicked env c l d s).1

/-- The ledger state after a sequence of public staging calls, starting from
the empty ledger. -/
def run (env : Env) (ops : List Op) : Commit :=
  ops.foldl (applyOp env) Commit.empty

/-- A concrete environment for witnesses: every item is its own logical
parent, and clone production always succeeds. -/
def env0 : Env := ⟨id, fun _ _ => true⟩

/-- A concrete environment where clone production always fails. -/
def envFail : Env := ⟨id, fun _ _ => false⟩

/-- The ledger reached from empty by `Stage(item 0, CHT_ADD, null)`: item 0
is touched, but only through an `Add` record. -/
def cAdd : Commit := ⟨[⟨0, CHT_ADD, none, none⟩], [0], 0⟩

/-- A concrete ledger for witnesses: one `Modify` record owning clone 3 and
one `Add` record owning nothing. -/
def cTwo : Commit := ⟨[⟨0, CHT_MODIFY, some 3, none⟩, ⟨1, CHT_ADD, none, none⟩], [0, 1], 4⟩

/-! ## Helper lemmas -/

theorem find?_eq_head?_filter {α : Type} (p : α → Bool) (l : List α) :
    l.find? p = (l.filter p).head? := by
  induction l with
  | nil => rfl
  | cons a t ih =>
      cases h : p a with
      | true =>
          rw [List.find?_cons_of_pos (l := t) h, List.filter_cons_of_pos (l := t) h]
          rfl
      | false =>
          have h' : ¬p a = true := by simp [h]
          rw [List.find?_cons_of_neg (l := t) h', List.filter_cons_of_neg (l := t) h', ih]

theorem makeEntry_changes (c : Commit) (i t : Nat) (cp : Option Nat)
    (s : Option Nat) :
    (makeEntry c i t cp s).1.m_changes =
      (if i ∈ c.m_changedItems then
        c.m_changes.filter fun e => !(e.m_item == i && e.m_screen == s)
       else c.m_changes) ++ [⟨i, t, cp, s⟩] := rfl

theorem makeEntry_touched (c : Commit) (i t : Nat) (cp : Option Nat)
    (s : Option Nat) :
    (makeEntry c i t cp s).1.m_changedItems = c.m_changedItems.insert i := rfl

theorem makeEntry_nextClone (c : Commit) (i t : Nat) (cp : Option Nat)
    (s : Option Nat) :
    (makeEntry c i t cp s).1.nextClone = c.nextClone := rfl

theorem createModified_of_touched (env : Env) (c : Commit) (i cp fl : Nat)
    (s : Option Nat) (h : env.parent i ∈ c.m_changedItems) :
    createModified env c i cp fl s = (c, [cp], []) := by
  simp [createModified, h]

theorem createModified_of_untouched (env : Env) (c : Commit) (i cp fl : Nat)
    (s : Option Nat) (h : env.parent i ∉ c.m_changedItems) :
    createModified env c i cp fl s =
      ((makeEntry c (env.parent i) (CHT_MODIFY ||| fl) (some cp) s).1, [],
       (makeEntry c (env.parent i) (CHT_MODIFY ||| fl) (some cp) s).2) := by
  simp [createModified, h]

theorem makeEntry_viols (c : Commit) (i t : Nat) (cp : Option Nat)
    (s : Option Nat) :
    (makeEntry c i t cp s).2 =
      if cp.isSome = ((t &&& CHT_TYPE) == CHT_MODIFY) then []
      else [Violation.copyKindMismatch] := rfl

theorem Stage_eq_add (env : Env) (c : Commit) (i t : Nat) (s : Option Nat)
    (ht : t &&& CHT_TYPE = CHT_ADD) :
    Stage env c i t s =
      ((makeEntry c i (CHT_ADD ||| (t &&& CHT_FLAGS)) none s).1, [],
       (if (t &&& (CHT_MODIFY ||| CHT_DONE)) == (CHT_MODIFY ||| CHT_DONE)
        then [Violation.modifyDoneConflict] else [])
       ++ (if i ∈ c.m_changedItems then [Violation.addAlreadyTouched] else [])
       ++ (makeEntry c i (CHT_ADD ||| (t &&& CHT_FLAGS)) none s).2) := by
  have hA : ((t &&& CHT_TYPE) == CHT_ADD) = true := by rw [ht]; decide
  simp [Stage, hA]

theorem Stage_eq_remove (env : Env) (c : Commit) (i t : Nat) (s : Option Nat)
    (ht : t &&& CHT_TYPE = CHT_REMOVE) :
    Stage env c i t s =
      ((makeEntry c i (CHT_REMOVE ||| (t &&& CHT_FLAGS)) none s).1, [],
       (if (t &&& (CHT_MODIFY ||| CHT_DONE)) == (CHT_MODIFY ||| CHT_DONE)
        then [Violation.modifyDoneConflict] else [])
       ++ (makeEntry c i (CHT_REMOVE ||| (t &&& CHT_FLAGS)) none s).2) := by
  have hA : ((t &&& CHT_TYPE) == CHT_ADD) = false := by rw [ht]; decide
  have hR : ((t &&& CHT_TYPE) == CHT_REMOVE) = true := by rw [ht]; decide
  simp [Stage, hA, hR]

theorem Stage_eq_modify_ok (env : Env) (c : Commit) (i t : Nat) (s : Option Nat)
    (ht : t &&& CHT_TYPE = CHT_MODIFY)
    (hok : env.cloneOk c.nextClone (env.parent i) = true) :
    Stage env c i t s =
      ((createModified env { c with nextClone := c.nextClone + 1 } (env.parent i)
          c.nextClone (t &&& CHT_FLAGS) s).1,
       (createModified env { c with nextClone := c.nextClone + 1 } (env.parent i)
          c.nextClone (t &&& CHT_FLAGS) s).2.1,
       (if (t &&& (CHT_MODIFY ||| CHT_DONE)) == (CHT_MODIFY ||| CHT_DONE)
        then [Violation.modifyDoneConflict] else [])
       ++ (createModified env { c with nextClone := c.nextClone + 1 } (env.parent i)
             c.nextClone (t &&& CHT_FLAGS) s).2.2) := by
  have hA : ((t &&& CHT_TYPE) == CHT_ADD) = false := by rw [ht]; decide
  have hR : ((t &&& CHT_TYPE) == CHT_REMOVE) = false := by rw [ht]; decide
  have hM : ((t &&& CHT_TYPE) == CHT_MODIFY) = true := by rw [ht]; decide
  simp [Stage, hA, hR, hM, makeImage, hok]

theorem Stage_eq_modify_fail (env : Env) (c : Commit) (i t : Nat)
    (s : Option Nat) (ht : t &&& CHT_TYPE = CHT_MODIFY)
    (hfail : env.cloneOk c.nextClone (env.parent i) = false) :
    Stage env c i t s =
      ({ c with nextClone := c.nextClone + 1 }, [],
       (if (t &&& (CHT_MODIFY ||| CHT_DONE)) == (CHT_MODIFY ||| CHT_DONE)
        then [Violation.modifyDoneConflict] else [])
       ++ [Violation.cloneFailed]) := by
  have hA : ((t &&& CHT_TYPE) == CHT_ADD) = false := by rw [ht]; decide
  have hR : ((t &&& CHT_TYPE) == CHT_REMOVE) = false := by rw [ht]; decide
  have hM : ((t &&& CHT_TYPE) == CHT_MODIFY) = true := by rw [ht]; decide
  simp [Stage, hA, hR, hM, makeImage, hfail]

/-! ## Claims -/

/-- **C9.** `GetStatus(item, screen)` returns the kind-plus-flags `m_type` of
the *first* record whose (item, screen) pair equals
(logical-parent-of-item, screen), and `0` ("no change") when no such record
exists.  The embedding of `GetStatus` is a pure function of the state, so it
has no effect on the records or the touched set. -/
theorem getStatus_first_match (env : Env) (c : Commit) (aItem : Nat)
    (aScreen : Option Nat) :
    GetStatus env c aItem aScreen =
      match (c.m_changes.filter fun e =>
          e.m_item == env.parent aItem && e.m_screen == aScreen).head? with
      | some e => e.m_type
      | none => 0 := by
  unfold GetStatus findEntry
  rw [find?_eq_head?_filter]

/-- **C8.** At destruction, a snapshot is released iff some record of the
ledger still owns it; under the distinct-ownership reading of heap pointers
(no two records own the same snapshot, `Nodup`), a snapshot owned by a
record is released exactly once, and one owned by no record (discarded or
superseded earlier) is not released at all.  This holds for an arbitrary
ledger state, hence with or without a prior drain. -/
theorem destructor_release_once (c : Commit) (x : Nat)
    (hnd : (destructorReleased c).Nodup) :
    (x ∈ destructorReleased c ↔ ∃ e ∈ c.m_changes, e.m_copy = some x)
    ∧ ((∃ e ∈ c.m_changes, e.m_copy = some x) →
        (destructorReleased c).count x = 1)
    ∧ ((∀ e ∈ c.m_changes, e.m_copy ≠ some x) →
        (destructorReleased c).count x = 0) := by
  have hmem : x ∈ destructorReleased c ↔ ∃ e ∈ c.m_changes, e.m_copy = some x := by
    simp [destructorReleased]
  refine ⟨hmem, fun h => List.count_eq_one_of_mem hnd (hmem.mpr h), fun h => ?_⟩
  rw [List.count_eq_zero]
  intro hx
  obtain ⟨e, he, hcopy⟩ := hmem.mp hx
  exact h e he hcopy

/-- Witness for C8 at the concrete two-record ledger `cTwo` and snapshot 3. -/
theorem destructor_release_once_witness :
    (3 ∈ destructorReleased cTwo ↔ ∃ e ∈ cTwo.m_changes, e.m_copy = some 3)
    ∧ ((∃ e ∈ cTwo.m_changes, e.m_copy = some 3) →
        (destructorReleased cTwo).count 3 = 1)
    ∧ ((∀ e ∈ cTwo.m_changes, e.m_copy ≠ some 3) →
        (destructorReleased cTwo).count 3 = 0) :=
  destructor_release_once cTwo 3 (by decide)

/-- **C4.** Staging `Add` for an already-touched item signals the contract
violation (`wxASSERT` at the top of the `CHT_ADD` case) — it is detected,
not silently swallowed; in particular the second `Add` of the same item in
one transaction signals it.  An `Add` of an untouched item appends a record
with no snapshot and kind `CHT_ADD` plus the supplied flags, marks the item
touched, and signals no such violation. -/
theorem stage_add_contract (env : Env) (c : Commit) (i t : Nat) (s : Option Nat)
    (ht : t &&& CHT_TYPE = CHT_ADD) :
    (i ∈ c.m_changedItems →
        Violation.addAlreadyTouched ∈ (Stage env c i t s).2.2)
    ∧ (i ∉ c.m_changedItems →
        (Stage env c i t s).1.m_changes
            = c.m_changes ++ [⟨i, CHT_ADD ||| (t &&& CHT_FLAGS), none, s⟩]
        ∧ (Stage env c i t s).1.m_changedItems = c.m_changedItems.insert i
        ∧ Violation.addAlreadyTouched ∉ (Stage env c i t s).2.2)
    ∧ Violation.addAlreadyTouched ∈ (Stage env (Stage env c i t s).1 i t s).2.2 := by
  have hviol : ∀ c' : Commit, i ∈ c'.m_changedItems →
      Violation.addAlreadyTouched ∈ (Stage env c' i t s).2.2 := by
    intro c' hc
    rw [Stage_eq_add env c' i t s ht]
    simp [hc]
  refine ⟨hviol c, fun hc => ⟨?_, ?_, ?_⟩, ?_⟩
  · rw [Stage_eq_add env c i t s ht]
    simp [makeEntry_changes, hc]
  · rw [Stage_eq_add env c i t s ht, makeEntry_touched]
  · rw [Stage_eq_add env c i t s ht]
    simp only [makeEntry_viols, hc, List.mem_append]
    split <;> split <;> simp_all
  · apply hviol
    rw [Stage_eq_add env c i t s ht, makeEntry_touched]
    exact List.mem_insert_self i _

/-- Witness for C4 at the empty ledger, item 0, change type `CHT_ADD`. -/
theorem stage_add_contract_witness :
    (0 ∈ Commit.empty.m_changedItems →
        Violation.addAlreadyTouched ∈ (Stage env0 Commit.empty 0 CHT_ADD none).2.2)
    ∧ (0 ∉ Commit.empty.m_changedItems →
        (Stage env0 Commit.empty 0 CHT_ADD none).1.m_changes
            = Commit.empty.m_changes
              ++ [⟨0, CHT_ADD ||| (CHT_ADD &&& CHT_FLAGS), none, none⟩]
        ∧ (Stage env0 Commit.empty 0 CHT_ADD none).1.m_changedItems
            = Commit.empty.m_changedItems.insert 0
        ∧ Violation.addAlreadyTouched ∉ (Stage env0 Commit.empty 0 CHT_ADD none).2.2)
    ∧ Violation.addAlreadyTouched
        ∈ (Stage env0 (Stage env0 Commit.empty 0 CHT_ADD none).1 0 CHT_ADD none).2.2 :=
  stage_add_contract env0 Commit.empty 0 CHT_ADD none (by decide)

/-- **C7.** When clone production fails during `Stage(item, Modify, screen)`,
the call signals the failure (`wxASSERT( clone )`) and the ledger is left
unchanged: the records and the touched set are exactly as before, and no
clone is released. -/
theorem stage_modify_clone_failure (env : Env) (c : Commit) (i t : Nat)
    (s : Option Nat) (ht : t &&& CHT_TYPE = CHT_MODIFY)
    (hfail : env.cloneOk c.nextClone (env.parent i) = false) :
    (Stage env c i t s).1.m_changes = c.m_changes
    ∧ (Stage env c i t s).1.m_changedItems = c.m_changedItems
    ∧ (Stage env c i t s).2.1 = []
    ∧ Violation.cloneFailed ∈ (Stage env c i t s).2.2 := by
  rw [Stage_eq_modify_fail env c i t s ht hfail]
  refine ⟨rfl, rfl, rfl, ?_⟩
  simp

/-- Witness for C7 in the always-failing clone environment. -/
theorem stage_modify_clone_failure_witness :
    (Stage envFail Commit.empty 0 CHT_MODIFY none).1.m_changes
        = Commit.empty.m_changes
    ∧ (Stage envFail Commit.empty 0 CHT_MODIFY none).1.m_changedItems
        = Commit.empty.m_changedItems
    ∧ (Stage envFail Commit.empty 0 CHT_MODIFY none).2.1 = []
    ∧ Violation.cloneFailed ∈ (Stage envFail Commit.empty 0 CHT_MODIFY none).2.2 :=
  stage_modify_clone_failure envFail Commit.empty 0 CHT_MODIFY none
    (by decide) (by decide)

theorem filter_and_not_same {i : Nat} {sA sB : Option Nat} (hne : sB ≠ sA)
    (e : COMMIT_LINE) :
    ((e.m_item == i && e.m_screen == sB) && !(e.m_item == i && e.m_screen == sA))
      = (e.m_item == i && e.m_screen == sB) := by
  cases hi : (e.m_item == i) <;> cases hsB : (e.m_screen == sB) <;> simp_all

/-- **C2.** Staging `Add(item, screenA)` then `Remove(item, screenA)` leaves
exactly one record whose (item, screen) pair is (item, screenA), and it has
kind `Remove` with no snapshot; and the supersede step of `makeEntry` with
incoming pair (item, screenA) leaves the records for (item, screenB),
`screenB ≠ screenA`, exactly as they were. -/
theorem supersede_add_remove (env : Env) (c c' : Commit) (i ty : Nat)
    (cp : Option Nat) (sA sB : Option Nat) (hne : sB ≠ sA) :
    ((Stage env (Stage env c i CHT_ADD sA).1 i CHT_REMOVE sA).1.m_changes.filter
        fun e => e.m_item == i && e.m_screen == sA)
      = [⟨i, CHT_REMOVE, none, sA⟩]
    ∧ ((makeEntry c' i ty cp sA).1.m_changes.filter
        fun e => e.m_item == i && e.m_screen == sB)
      = c'.m_changes.filter fun e => e.m_item == i && e.m_screen == sB := by
  have hremnum : CHT_REMOVE ||| (CHT_REMOVE &&& CHT_FLAGS) = CHT_REMOVE := by decide
  have hsBA : (sA == sB) = false := by
    simp only [beq_eq_false_iff_ne, ne_eq]
    exact fun h => hne h.symm
  constructor
  · rw [Stage_eq_add env c i CHT_ADD sA (by decide),
        Stage_eq_remove env _ i CHT_REMOVE sA (by decide)]
    have htch : i ∈ (makeEntry c i (CHT_ADD ||| (CHT_ADD &&& CHT_FLAGS))
        none sA).1.m_changedItems := by
      rw [makeEntry_touched]
      exact List.mem_insert_self i _
    rw [hremnum, makeEntry_changes, if_pos htch, List.filter_append,
        List.filter_filter]
    have hzero : ∀ e ∈ (makeEntry c i (CHT_ADD ||| (CHT_ADD &&& CHT_FLAGS))
        none sA).1.m_changes,
        ((e.m_item == i && e.m_screen == sA) && !(e.m_item == i && e.m_screen == sA))
          = false := fun e _ => Bool.and_not_self _
    rw [List.filter_congr hzero]
    simp
  · by_cases h : i ∈ c'.m_changedItems
    · rw [makeEntry_changes, if_pos h, List.filter_append, List.filter_filter,
          List.filter_congr fun e _ => filter_and_not_same hne e]
      simp [hsBA]
    · rw [makeEntry_changes, if_neg h, List.filter_append]
      simp [hsBA]

/-- Witness for C2: add then remove item 0 on screen 7 starting from the
empty ledger; the supersede step on `cAdd` with screens 7 versus 8. -/
theorem supersede_add_remove_witness :
    ((Stage env0 (Stage env0 Commit.empty 0 CHT_ADD (some 7)).1
        0 CHT_REMOVE (some 7)).1.m_changes.filter
        fun e => e.m_item == 0 && e.m_screen == some 7)
      = [⟨0, CHT_REMOVE, none, some 7⟩]
    ∧ ((makeEntry cAdd 0 CHT_ADD none (some 7)).1.m_changes.filter
        fun e => e.m_item == 0 && e.m_screen == some 8)
      = cAdd.m_changes.filter fun e => e.m_item == 0 && e.m_screen == some 8 :=
  supersede_add_remove env0 Commit.empty cAdd 0 CHT_ADD none
    (some 7) (some 8) (by decide)

/-- **C3 (amended).** In create-modified the supplied clone is discarded and
the call a no-op iff the resolved parent identity is already touched (by a
record of *any* kind, not only a `Modify`-class one); when the parent is
untouched, a `Modify` record owning the clone is appended and the parent
marked touched, with nothing released. -/
theorem createModified_noop_iff_touched (env : Env) (c : Commit) (i cp fl : Nat)
    (s : Option Nat) :
    (env.parent i ∈ c.m_changedItems →
        createModified env c i cp fl s = (c, [cp], []))
    ∧ (env.parent i ∉ c.m_changedItems →
        (createModified env c i cp fl s).1.m_changes
            = c.m_changes ++ [⟨env.parent i, CHT_MODIFY ||| fl, some cp, s⟩]
        ∧ (createModified env c i cp fl s).1.m_changedItems
            = c.m_changedItems.insert (env.parent i)
        ∧ (createModified env c i cp fl s).2.1 = []) := by
  refine ⟨fun h => createModified_of_touched env c i cp fl s h, fun h => ?_⟩
  rw [createModified_of_untouched env c i cp fl s h]
  exact ⟨by rw [makeEntry_changes, if_neg h], by rw [makeEntry_touched], rfl⟩

/-- Witness for C3's amended statement: on `cAdd` (item 0 touched through an
`Add` record) the freshly supplied clone 5 is released and nothing changes. -/
theorem createModified_noop_iff_touched_witness :
    createModified env0 cAdd 0 5 0 none = (cAdd, [5], []) :=
  (createModified_noop_iff_touched env0 cAdd 0 5 0 none).1 (by decide)

/-- Counterexample to C3 as stated: in the reachable ledger `cAdd` no record
is `Modify`-class, yet create-modified discards the clone and is a no-op —
so "no-op iff the parent is touched by an existing Modify-class record" is
false (the claim would require a new record to be appended here). -/
theorem createModified_noop_despite_no_modify_record :
    cAdd = (Stage env0 Commit.empty 0 CHT_ADD none).1
    ∧ createModified env0 cAdd 0 5 0 none = (cAdd, [5], [])
    ∧ (∀ e ∈ cAdd.m_changes, ¬(e.m_type &&& CHT_TYPE = CHT_MODIFY)) := by
  exact ⟨by decide, by decide, by decide⟩

theorem stage_modify_untouched_eq (env : Env) (c : Commit) (item : Nat)
    (s : Option Nat)
    (hq : env.parent (env.parent item) ∉ c.m_changedItems)
    (h1 : env.cloneOk c.nextClone (env.parent item) = true) :
    Stage env c item CHT_MODIFY s =
      (⟨c.m_changes
          ++ [⟨env.parent (env.parent item), CHT_MODIFY, some c.nextClone, s⟩],
        c.m_changedItems.insert (env.parent (env.parent item)),
        c.nextClone + 1⟩, [], []) := by
  rw [Stage_eq_modify_ok env c item CHT_MODIFY s (by decide) h1,
      createModified_of_untouched env ⟨c.m_changes, c.m_changedItems, c.nextClone + 1⟩
        (env.parent item) c.nextClone (CHT_MODIFY &&& CHT_FLAGS) s hq]
  simp [makeEntry, hq, CHT_MODIFY, CHT_FLAGS, CHT_TYPE, CHT_ADD, CHT_REMOVE,
    CHT_DONE]
  all_goals decide

theorem filter_item_eq_nil (c : Commit) (q : Nat) (hInv : Inv c)
    (hq : q ∉ c.m_changedItems) :
    c.m_changes.filter (fun e => e.m_item == q) = [] := by
  rw [List.filter_eq_nil_iff]
  intro e he
  simp only [beq_iff_eq]
  intro heq
  exact hq (heq ▸ hInv e he)

/-- **C1 (amended).** From any ledger state satisfying the records-touched
invariant in which the item's resolved parent is not yet touched, staging
`Modify` on the same item twice in one transaction yields exactly one record
for that parent — a `Modify` record carrying the first observed snapshot;
the second call's freshly produced clone is released immediately and the
records and touched set are unchanged by the second call. -/
theorem modify_twice_first_snapshot (env : Env) (c : Commit) (item : Nat)
    (s : Option Nat) (hInv : Inv c)
    (hq : env.parent (env.parent item) ∉ c.m_changedItems)
    (h1 : env.cloneOk c.nextClone (env.parent item) = true)
    (h2 : env.cloneOk (c.nextClone + 1) (env.parent item) = true) :
    ((Stage env (Stage env c item CHT_MODIFY s).1 item CHT_MODIFY s).1.m_changes.filter
        fun e => e.m_item == env.parent (env.parent item))
      = [⟨env.parent (env.parent item), CHT_MODIFY, some c.nextClone, s⟩]
    ∧ (Stage env (Stage env c item CHT_MODIFY s).1 item CHT_MODIFY s).2.1
      = [c.nextClone + 1]
    ∧ (Stage env (Stage env c item CHT_MODIFY s).1 item CHT_MODIFY s).1.m_changes
      = (Stage env c item CHT_MODIFY s).1.m_changes
    ∧ (Stage env (Stage env c item CHT_MODIFY s).1 item CHT_MODIFY s).1.m_changedItems
      = (Stage env c item CHT_MODIFY s).1.m_changedItems := by
  rw [stage_modify_untouched_eq env c item s hq h1]
  have e2 : Stage env
      (⟨c.m_changes
          ++ [⟨env.parent (env.parent item), CHT_MODIFY, some c.nextClone, s⟩],
        c.m_changedItems.insert (env.parent (env.parent item)),
        c.nextClone + 1⟩ : Commit) item CHT_MODIFY s =
      (⟨c.m_changes
          ++ [⟨env.parent (env.parent item), CHT_MODIFY, some c.nextClone, s⟩],
        c.m_changedItems.insert (env.parent (env.parent item)),
        c.nextClone + 2⟩, [c.nextClone + 1], []) := by
    rw [Stage_eq_modify_ok env _ item CHT_MODIFY s (by decide) h2,
        createModified_of_touched env _ (env.parent item) (c.nextClone + 1)
          (CHT_MODIFY &&& CHT_FLAGS) s (List.mem_insert_self _ _)]
    simp [CHT_MODIFY, CHT_DONE]
    all_goals decide
  rw [e2]
  refine ⟨?_, rfl, rfl, rfl⟩
  rw [List.filter_append, filter_item_eq_nil c _ hInv hq]
  simp

/-- Witness for C1's amended statement at the empty ledger. -/
theorem modify_twice_first_snapshot_witness :
    ((Stage env0 (Stage env0 Commit.empty 0 CHT_MODIFY none).1
        0 CHT_MODIFY none).1.m_changes.filter
        fun e => e.m_item == env0.parent (env0.parent 0))
      = [⟨env0.parent (env0.parent 0), CHT_MODIFY,
          some Commit.empty.nextClone, none⟩]
    ∧ (Stage env0 (Stage env0 Commit.empty 0 CHT_MODIFY none).1
        0 CHT_MODIFY none).2.1 = [Commit.empty.nextClone + 1]
    ∧ (Stage env0 (Stage env0 Commit.empty 0 CHT_MODIFY none).1
        0 CHT_MODIFY none).1.m_changes
      = (Stage env0 Commit.empty 0 CHT_MODIFY none).1.m_changes
    ∧ (Stage env0 (Stage env0 Commit.empty 0 CHT_MODIFY none).1
        0 CHT_MODIFY none).1.m_changedItems
      = (Stage env0 Commit.empty 0 CHT_MODIFY none).1.m_changedItems :=
  modify_twice_first_snapshot env0 Commit.empty 0 none
    (fun e he => absurd he (List.not_mem_nil e)) (by decide) (by decide) (by decide)

/-- Counterexample to C1 as stated over *every* ledger state: in the
reachable ledger `cAdd` (item 0 already touched through an `Add` record),
staging `Modify` twice yields *zero* `Modify` records for the item, not
exactly one. -/
theorem modify_twice_no_record :
    cAdd = (Stage env0 Commit.empty 0 CHT_ADD none).1
    ∧ ((Stage env0 (Stage env0 cAdd 0 CHT_MODIFY none).1
          0 CHT_MODIFY none).1.m_changes.filter
        fun e => e.m_item == 0 && (e.m_type &&& CHT_TYPE == CHT_MODIFY)) = [] := by
  exact ⟨by decide, by decide⟩

/-- **C6 (amended).** When the logical parent resolves idempotently and is
not yet touched, `GetStatus(item, screen)` immediately after a successful
`Stage(item, Modify, screen)` returns `CHT_MODIFY`; and `GetStatus` on any
ledger having no record for (logical-parent-of-item, screen) returns `0`
("no change"). -/
theorem getStatus_round_trip (env : Env) (c c' : Commit) (item item' : Nat)
    (s s' : Option Nat)
    (hIdem : env.parent (env.parent item) = env.parent item)
    (hInv : Inv c)
    (hq : env.parent item ∉ c.m_changedItems)
    (h1 : env.cloneOk c.nextClone (env.parent item) = true)
    (hnone : ∀ e ∈ c'.m_changes, ¬(e.m_item = env.parent item' ∧ e.m_screen = s')) :
    GetStatus env (Stage env c item CHT_MODIFY s).1 item s = CHT_MODIFY
    ∧ GetStatus env c' item' s' = 0 := by
  have hq2 : env.parent (env.parent item) ∉ c.m_changedItems := by
    rw [hIdem]; exact hq
  constructor
  · rw [stage_modify_untouched_eq env c item s hq2 h1]
    unfold GetStatus findEntry
    have hfront : (c.m_changes.find? fun e =>
        e.m_item == env.parent item && e.m_screen == s) = none := by
      rw [List.find?_eq_none]
      intro e he
      simp only [Bool.and_eq_true, beq_iff_eq, not_and]
      intro heq
      exact absurd (heq ▸ hInv e he) hq
    simp [List.find?_append, hfront, hIdem]
  · unfold GetStatus findEntry
    have : (c'.m_changes.find? fun e =>
        e.m_item == env.parent item' && e.m_screen == s') = none := by
      rw [List.find?_eq_none]
      intro e he
      simp only [Bool.and_eq_true, beq_iff_eq, not_and]
      intro h1' h2'
      exact hnone e he ⟨h1', h2'⟩
    simp [this]

/-- Witness for C6's amended statement: a fresh `Modify` staging of item 0
on the empty ledger, and a no-record query on `cAdd` for item 1. -/
theorem getStatus_round_trip_witness :
    GetStatus env0 (Stage env0 Commit.empty 0 CHT_MODIFY none).1 0 none = CHT_MODIFY
    ∧ GetStatus env0 cAdd 1 none = 0 :=
  getStatus_round_trip env0 Commit.empty cAdd 0 1 none none (by decide)
    (fun e he => absurd he (List.not_mem_nil e)) (by decide) (by decide)
    (by decide)

/-- Counterexample to C6 as stated: on the reachable ledger `cAdd`,
`Stage(item 0, Modify, null)` succeeds (the clone is produced and no
assertion fires — it is the first-snapshot-wins no-op), yet the immediately
following `GetStatus` returns the `Add` status, whose kind is not `Modify`. -/
theorem getStatus_after_modify_not_modify :
    cAdd = (Stage env0 Commit.empty 0 CHT_ADD none).1
    ∧ (Stage env0 cAdd 0 CHT_MODIFY none).2.2 = []
    ∧ ¬(GetStatus env0 (Stage env0 cAdd 0 CHT_MODIFY none).1 0 none &&& CHT_TYPE
          = CHT_MODIFY) := by
  exact ⟨by decide, by decide, by decide⟩

/-- **C5.** Bulk import processes triples in order (head first, the rest on
the resulting state); an `UNSPECIFIED` status is replaced by the default
change kind; a triple carrying a pre-made clone is adopted directly through
the create-modified path (`Modified`), producing no fresh clone and — when
the parent is untouched — appending a `Modify` record owning that exact
clone; statuses map `NEWITEM → CHT_ADD`, `DELETED → CHT_REMOVE`,
`CHANGED → CHT_MODIFY` through the ordinary single-item `Stage`; any other
status signals the contract violation, as does a clone on a non-`CHANGED`
triple. -/
theorem bulk_import_mapping (env : Env) (c : Commit) (p : PICKED)
    (ps : List PICKED) (d : UNDO_REDO) (s : Option Nat) (i k : Nat)
    (lnk : Option Nat) :
    (StagePicked env c (p :: ps) d s
      = ((StagePicked env (stagePickedStep env c p d s).1 ps d s).1,
         (stagePickedStep env c p d s).2.1
           ++ (StagePicked env (stagePickedStep env c p d s).1 ps d s).2.1,
         (stagePickedStep env c p d s).2.2
           ++ (StagePicked env (stagePickedStep env c p d s).1 ps d s).2.2))
    ∧ stagePickedStep env c ⟨i, UNDO_REDO.UNSPECIFIED, lnk⟩ d s
      = stagePickedStep env c ⟨i, d, lnk⟩ d s
    ∧ stagePickedStep env c ⟨i, UNDO_REDO.CHANGED, some k⟩ d s
      = Modified env c i k s
    ∧ (stagePickedStep env c ⟨i, UNDO_REDO.CHANGED, some k⟩ d s).1.nextClone
      = c.nextClone
    ∧ (env.parent i ∉ c.m_changedItems →
        (stagePickedStep env c ⟨i, UNDO_REDO.CHANGED, some k⟩ d s).1.m_changes
          = c.m_changes ++ [⟨env.parent i, CHT_MODIFY, some k, s⟩])
    ∧ stagePickedStep env c ⟨i, UNDO_REDO.NEWITEM, none⟩ d s
      = Stage env c i CHT_ADD s
    ∧ stagePickedStep env c ⟨i, UNDO_REDO.DELETED, none⟩ d s
      = Stage env c i CHT_REMOVE s
    ∧ stagePickedStep env c ⟨i, UNDO_REDO.CHANGED, none⟩ d s
      = Stage env c i CHT_MODIFY s
    ∧ Violation.unconvertibleStatus
        ∈ (stagePickedStep env c ⟨i, UNDO_REDO.OTHER, none⟩ d s).2.2
    ∧ Violation.linkNotChanged
        ∈ (stagePickedStep env c ⟨i, UNDO_REDO.NEWITEM, some k⟩ d s).2.2 := by
  refine ⟨rfl, ?_, ?_, ?_, ?_, ?_, ?_, ?_, ?_, ?_⟩
  · cases hd : (d == UNDO_REDO.UNSPECIFIED)
    · simp [stagePickedStep, hd]
    · have : d = UNDO_REDO.UNSPECIFIED := by
        cases d <;> simp_all
      simp [stagePickedStep, this]
  · simp [stagePickedStep]
  · by_cases htch : env.parent i ∈ c.m_changedItems
    · simp [stagePickedStep, Modified, createModified_of_touched env c i k 0 s htch]
    · simp [stagePickedStep, Modified,
        createModified_of_untouched env c i k 0 s htch, makeEntry_nextClone]
  · intro htch
    unfold stagePickedStep Modified
    simp only
    rw [createModified_of_untouched env c i k 0 s htch]
    simp [makeEntry_changes, htch]
  · simp [stagePickedStep, convert]
  · simp [stagePickedStep, convert]
  · simp [stagePickedStep, convert]
  · simp [stagePickedStep, convert]
  · simp [stagePickedStep]

/-- Witness for C5's untouched-adoption conjunct: the adopted clone 9 ends
up owned by a fresh `Modify` record of the empty ledger. -/
theorem bulk_import_mapping_witness :
    (stagePickedStep env0 Commit.empty ⟨0, UNDO_REDO.CHANGED, some 9⟩
        UNDO_REDO.UNSPECIFIED none).1.m_changes
      = Commit.empty.m_changes ++ [⟨env0.parent 0, CHT_MODIFY, some 9, none⟩] :=
  (bulk_import_mapping env0 Commit.empty ⟨0, UNDO_REDO.CHANGED, some 9⟩ []
      UNDO_REDO.UNSPECIFIED none 0 9 none).2.2.2.2.1 (by decide)

theorem inv_makeEntry (c : Commit) (i t : Nat) (cp : Option Nat)
    (s : Option Nat) (h : Inv c) : Inv (makeEntry c i t cp s).1 := by
  intro e he
  rw [makeEntry_changes] at he
  rw [makeEntry_touched]
  rcases List.mem_append.mp he with hl | hr
  · have hmem : e ∈ c.m_changes := by
      by_cases htch : i ∈ c.m_changedItems
      · rw [if_pos htch] at hl
        exact List.mem_of_mem_filter hl
      · rwa [if_neg htch] at hl
    exact List.mem_insert_of_mem (h e hmem)
  · have : e = ⟨i, t, cp, s⟩ := by simpa using hr
    rw [this]
    exact List.mem_insert_self i _

theorem inv_nextClone (c : Commit) (n : Nat) (h : Inv c) :
    Inv { c with nextClone := n } := h

theorem inv_createModified (env : Env) (c : Commit) (i cp fl : Nat)
    (s : Option Nat) (h : Inv c) : Inv (createModified env c i cp fl s).1 := by
  by_cases htch : env.parent i ∈ c.m_changedItems
  · rw [createModified_of_touched env c i cp fl s htch]
    exact h
  · rw [createModified_of_untouched env c i cp fl s htch]
    exact inv_makeEntry c (env.parent i) _ (some cp) s h

theorem inv_Stage (env : Env) (c : Commit) (i t : Nat) (s : Option Nat)
    (h : Inv c) : Inv (Stage env c i t s).1 := by
  by_cases hA : ((t &&& CHT_TYPE) == CHT_ADD) = true
  · have ht : t &&& CHT_TYPE = CHT_ADD := by simpa using hA
    rw [Stage_eq_add env c i t s ht]
    exact inv_makeEntry c i _ none s h
  · by_cases hR : ((t &&& CHT_TYPE) == CHT_REMOVE) = true
    · have ht : t &&& CHT_TYPE = CHT_REMOVE := by simpa using hR
      rw [Stage_eq_remove env c i t s ht]
      exact inv_makeEntry c i _ none s h
    · by_cases hM : ((t &&& CHT_TYPE) == CHT_MODIFY) = true
      · have ht : t &&& CHT_TYPE = CHT_MODIFY := by simpa using hM
        by_cases hok : env.cloneOk c.nextClone (env.parent i) = true
        · rw [Stage_eq_modify_ok env c i t s ht hok]
          exact inv_createModified env _ (env.parent i) c.nextClone _ s
            (inv_nextClone c _ h)
        · have hfail : env.cloneOk c.nextClone (env.parent i) = false := by
            simpa using hok
          rw [Stage_eq_modify_fail env c i t s ht hfail]
          exact inv_nextClone c _ h
      · have e1 : Stage env c i t s = (c, [],
            (if (t &&& (CHT_MODIFY ||| CHT_DONE)) == (CHT_MODIFY ||| CHT_DONE)
             then [Violation.modifyDoneConflict] else [])
            ++ [Violation.badChangeType]) := by
          simp only [Stage, hA, hR, hM]
          rfl
        rw [e1]
        exact h

theorem inv_StageList (env : Env) (items : List Nat) (t : Nat)
    (s : Option Nat) :
    ∀ c : Commit, Inv c → Inv (StageList env c items t s).1 := by
  induction items with
  | nil => exact fun c h => h
  | cons i rest ih =>
      intro c h
      exact ih _ (inv_Stage env c i t s h)

theorem inv_stagePickedStep (env : Env) (c : Commit) (p : PICKED)
    (d : UNDO_REDO) (s : Option Nat) (h : Inv c) :
    Inv (stagePickedStep env c p d s).1 := by
  unfold stagePickedStep
  rcases p with ⟨i, st, lnk⟩
  rcases lnk with _ | ⟨k⟩
  · simp only
    exact inv_Stage env c i _ s h
  · simp only
    exact inv_createModified env c i k 0 s h

theorem inv_StagePicked (env : Env) (items : List PICKED) (d : UNDO_REDO)
    (s : Option Nat) :
    ∀ c : Commit, Inv c → Inv (StagePicked env c items d s).1 := by
  induction items with
  | nil => exact fun c h => h
  | cons p rest ih =>
      intro c h
      exact ih _ (inv_stagePickedStep env c p d s h)

theorem inv_applyOp (env : Env) (c : Commit) (op : Op) (h : Inv c) :
    Inv (applyOp env c op) := by
  cases op with
  | one i t s => exact inv_Stage env c i t s h
  | list l t s => exact inv_StageList env l t s c h
  | picked l d s => exact inv_StagePicked env l d s c h

/-- **C10.** In every ledger state reachable from the empty ledger through
the public staging operations, every record's item identity is a member of
the touched set — so a record can exist only for a touched item, and the
supersede scan skipped for untouched items can never miss a record. -/
theorem records_touched_inv (env : Env) (ops : List Op) : Inv (run env ops) := by
  suffices hgen : ∀ (l : List Op) (c : Commit), Inv c → Inv (l.foldl (applyOp env) c) by
    exact hgen ops Commit.empty (fun e he => absurd he (List.not_mem_nil e))
  intro l
  induction l with
  | nil => exact fun c h => h
  | cons op rest ih =>
      intro c h
      exact ih _ (inv_applyOp env c op h)

/-- Witness for C10 at a concrete three-call run. -/
theorem records_touched_inv_witness :
    Inv (run env0 [Op.one 0 CHT_ADD none, Op.one 1 CHT_MODIFY (some 2),
      Op.one 0 CHT_REMOVE none]) :=
  records_touched_inv env0 [Op.one 0 CHT_ADD none, Op.one 1 CHT_MODIFY (some 2),
    Op.one 0 CHT_REMOVE none]
